import Mathlib

/-!
# Verification of the temperature anomaly-detection pipeline (src/stream.py)

Shallow embedding of the analytical core of `stream.py`:

* `calculate_moving_average` — pandas `rolling(window, min_periods=1).mean()/.std()`,
  i.e. trailing-window arithmetic mean and sample (N−1) standard deviation;
* `detect_anomalies` — `is_anomaly = temp > avg + 2·std  ∨  temp < avg − 2·std`;
* `parallel_analysis` — `np.array_split(df, 4)`, per-chunk rolling stats,
  `pd.concat`, then `detect_anomalies` on the whole;
* `check_temperature_anomaly` — seasonal-baseline classification of a live reading.

Modelling conventions:
* a DataFrame is a `List` of records; temperatures are rationals;
* pandas `NaN` standard deviation is modelled by `Option`: the field `std_dev_sq`
  holds `some v` where `v` is the sample *variance* (so the float `std_dev` of the
  source is `Real.sqrt v`), and `none` where the source holds `NaN`.  Every float
  comparison of the source involving the standard deviation is embedded in its
  squared form (`(t − m)² > 4·v` for `t > m + 2·√v ∨ t < m − 2·√v`, and
  `(t − m)² ≤ 4·v` for `m − 2·√v ≤ t ≤ m + 2·√v`); the lemmas `band_gt_iff` and
  `band_le_iff` prove that for `0 ≤ v` (every variance is) the squared forms agree
  with the literal comparisons of the source over `ℝ`.  A comparison against `NaN`
  is `False` in IEEE/pandas semantics, which the `Option.none` branches encode.
-/

set_option autoImplicit false

/-- One row of the loaded CSV: `timestamp, city, season, temperature`. -/
structure TemperatureRecord where
  timestamp : Int
  city : String
  season : String
  temperature : ℚ
deriving DecidableEq, Repr

/-- A row after `calculate_moving_average`: the original fields plus the derived
columns `moving_avg` and `std_dev` (stored squared, `none` = `NaN`). -/
structure StatRecord where
  base : TemperatureRecord
  moving_avg : ℚ
  std_dev_sq : Option ℚ
deriving DecidableEq, Repr

/-- A row after `detect_anomalies`: a `StatRecord` plus the `is_anomaly` flag. -/
structure FlaggedRecord where
  base : TemperatureRecord
  moving_avg : ℚ
  std_dev_sq : Option ℚ
  is_anomaly : Bool
deriving DecidableEq, Repr

/-- Arithmetic mean of a list of rationals (`0` on `[]`, which the pipeline
never evaluates: every rolling window is nonempty and pandas `mean()` of an
empty filtered subset is `NaN`, handled separately at its use site). -/
def listMean (xs : List ℚ) : ℚ :=
  xs.sum / xs.length

/-- Sample variance with the N−1 denominator, `none` (pandas `NaN` std) when
fewer than two samples are available. -/
def sampleVar (xs : List ℚ) : Option ℚ :=
  if 2 ≤ xs.length then
    some (((xs.map (fun x => (x - listMean xs) ^ 2)).sum) / (xs.length - 1 : ℕ))
  else none

/-- The trailing rolling window: `acc` is the (reversed) list of temperatures
already consumed, and each step takes the `w` most recent samples.  This is the
streaming reading of pandas `rolling(window=w, min_periods=1)`. -/
def calcMA (w : Nat) (acc : List ℚ) : List TemperatureRecord → List StatRecord
  | [] => []
  | r :: rest =>
    let win := (r.temperature :: acc).take w
    ⟨r, listMean win, sampleVar win⟩ :: calcMA w (r.temperature :: acc) rest

/-- `calculate_moving_average(df, window)`: attach to each row the rolling mean
and the rolling sample standard deviation of the temperature column, window
size `window`, minimum one period (pandas `rolling(window, min_periods=1)`). -/
def calculate_moving_average (df : List TemperatureRecord) (window : Nat) : List StatRecord :=
  calcMA window [] df

/-- The per-row body of `detect_anomalies`:
`(temp > moving_avg + 2*std_dev) | (temp < moving_avg - 2*std_dev)`, with the
`NaN`-std row yielding `False` (both float comparisons are false on `NaN`). -/
def flagRecord (s : StatRecord) : FlaggedRecord :=
  ⟨s.base, s.moving_avg, s.std_dev_sq,
    match s.std_dev_sq with
    | none => false
    | some v => decide (4 * v < (s.base.temperature - s.moving_avg) ^ 2)⟩

/-- `detect_anomalies(df)`: attach the boolean `is_anomaly` column. -/
def detect_anomalies (df : List StatRecord) : List FlaggedRecord :=
  df.map flagRecord

/-- The chunk sizes produced by `np.array_split(·, n)` on `L` rows: the first
`L % n` chunks get `L / n + 1` rows, the remaining ones `L / n`. -/
def splitSizes (L n : Nat) : List Nat :=
  (List.range n).map (fun k => if k < L % n then L / n + 1 else L / n)

/-- Cut a list into consecutive chunks of the given sizes. -/
def chunksOf {α : Type} : List Nat → List α → List (List α)
  | [], _ => []
  | s :: ss, l => l.take s :: chunksOf ss (l.drop s)

/-- `np.array_split(l, n)`: `n` consecutive positional chunks, as even as
possible, the leftover rows going to the leading chunks. -/
def array_split {α : Type} (l : List α) (n : Nat) : List (List α) :=
  chunksOf (splitSizes l.length n) l

/-- `parallel_analysis(df)`: split into 4 chunks, run
`calculate_moving_average` (window 30) on each chunk independently, concatenate
the results in chunk order, then run `detect_anomalies` over the whole. -/
def parallel_analysis (df : List TemperatureRecord) : List FlaggedRecord :=
  detect_anomalies (((array_split df 4).map
    (fun chunk => calculate_moving_average chunk 30)).flatten)

/-- The temperature column of the rows matching both `city` and `season`
(the filtered subset that `check_temperature_anomaly` aggregates over). -/
def seasonalTemps (city season : String) (df : List TemperatureRecord) : List ℚ :=
  (df.filter (fun r => r.city == city && r.season == season)).map
    (fun r => r.temperature)

/-- `check_temperature_anomaly(current_temp, city, season, df)`:
`mean_temp`/`std_temp` over the `(city, season)` subset, then
`"Температура в пределах нормы" if lower_bound <= current_temp <= upper_bound
else "Аномальная температура!"`.  When fewer than 2 rows match, `std_temp`
(and for 0 rows also `mean_temp`) is `NaN`, both bounds are `NaN`, the chained
comparison is `False`, and the `else` branch is taken. -/
def check_temperature_anomaly (current_temp : ℚ) (city season : String)
    (df : List TemperatureRecord) : String :=
  match sampleVar (seasonalTemps city season df) with
  | none => "Аномальная температура!"
  | some v =>
    if (current_temp - listMean (seasonalTemps city season df)) ^ 2 ≤ 4 * v then
      "Температура в пределах нормы"
    else
      "Аномальная температура!"

/-- The window that the claims speak about: the trailing window of up to `w`
samples of `temps` ending at position `i` (both 0-indexed). -/
def windowSlice (temps : List ℚ) (w i : Nat) : List ℚ :=
  (temps.take (i + 1)).drop (i + 1 - w)

/-- The historical series of the live-classification example in the spec:
city "X", season "summer", temperatures `[20, 22, 24, 26, 28]`. -/
def histX : List TemperatureRecord :=
  [⟨1, "X", "summer", 20⟩, ⟨2, "X", "summer", 22⟩, ⟨3, "X", "summer", 24⟩,
   ⟨4, "X", "summer", 26⟩, ⟨5, "X", "summer", 28⟩]

/-- The first chunk `np.array_split` produces on `histX` (sizes `[2,1,1,1]`). -/
def chunkA : List TemperatureRecord :=
  [⟨1, "X", "summer", 20⟩, ⟨2, "X", "summer", 22⟩]

/-- The last chunk `np.array_split` produces on `histX`. -/
def chunkB : List TemperatureRecord :=
  [⟨5, "X", "summer", 28⟩]

/-- A two-row series, for exercising the fewer-rows-than-chunks path. -/
def smallSeries : List TemperatureRecord :=
  [⟨1, "Y", "winter", -5⟩, ⟨2, "Y", "winter", 0⟩]

/-- A one-row stat table with a defined standard deviation, for exercising the
anomaly classifier: temperature 100, moving average 10, variance 4 (std 2). -/
def statExample : List StatRecord :=
  [⟨⟨0, "X", "summer", 100⟩, 10, some 4⟩]

/-! ## Basic lemmas about the statistics kernels -/

theorem listMean_reverse (xs : List ℚ) : listMean xs.reverse = listMean xs := by
  simp [listMean, List.sum_reverse, List.length_reverse]

theorem sampleVar_reverse (xs : List ℚ) : sampleVar xs.reverse = sampleVar xs := by
  unfold sampleVar
  rw [List.length_reverse, listMean_reverse, List.map_reverse, List.sum_reverse]

theorem sampleVar_eq_none_iff (xs : List ℚ) : sampleVar xs = none ↔ xs.length < 2 := by
  by_cases h : 2 ≤ xs.length
  · simp [sampleVar, h]
  · simp [sampleVar, h]
    omega

theorem sampleVar_nonneg (xs : List ℚ) (v : ℚ) (h : sampleVar xs = some v) : 0 ≤ v := by
  by_cases h2 : 2 ≤ xs.length
  · simp only [sampleVar, h2, if_pos] at h
    obtain rfl := Option.some.inj h
    apply div_nonneg
    · exact List.sum_nonneg (by
        intro x hx
        obtain ⟨y, _, rfl⟩ := List.mem_map.mp hx
        positivity)
    · positivity
  · simp [sampleVar, h2] at h

theorem calcMA_length (w : Nat) (acc : List ℚ) (l : List TemperatureRecord) :
    (calcMA w acc l).length = l.length := by
  induction l generalizing acc with
  | nil => rfl
  | cons r rest ih => simp [calcMA, ih]

theorem calculate_moving_average_length (l : List TemperatureRecord) (w : Nat) :
    (calculate_moving_average l w).length = l.length :=
  calcMA_length w [] l

theorem calcMA_map_base (w : Nat) (acc : List ℚ) (l : List TemperatureRecord) :
    (calcMA w acc l).map (fun s => s.base) = l := by
  induction l generalizing acc with
  | nil => rfl
  | cons r rest ih => simp [calcMA, ih]

theorem detect_anomalies_length (l : List StatRecord) :
    (detect_anomalies l).length = l.length := by
  simp [detect_anomalies]

theorem flagRecord_base (s : StatRecord) : (flagRecord s).base = s.base := rfl

theorem detect_anomalies_map_base (l : List StatRecord) :
    (detect_anomalies l).map (fun f => f.base) = l.map (fun s => s.base) := by
  simp [detect_anomalies, flagRecord_base, Function.comp]

/-! ## The streaming rolling window equals the positional trailing window -/

theorem take_reverse_eq {α : Type} (xs : List α) (w : Nat) :
    xs.reverse.take w = (xs.drop (xs.length - w)).reverse := by
  have h := @List.reverse_take α xs.reverse w
  rw [List.reverse_reverse, List.length_reverse] at h
  calc xs.reverse.take w = ((xs.reverse.take w).reverse).reverse :=
        (List.reverse_reverse _).symm
    _ = (xs.drop (xs.length - w)).reverse := by rw [h]

theorem calcMA_get (w : Nat) (l : List TemperatureRecord) :
    ∀ (i : Nat) (h : i < l.length) (acc : List ℚ),
      (calcMA w acc l).get ⟨i, by rw [calcMA_length]; exact h⟩ =
        ⟨l.get ⟨i, h⟩,
         listMean ((((l.take (i + 1)).map (fun r => r.temperature)).reverse ++ acc).take w),
         sampleVar ((((l.take (i + 1)).map (fun r => r.temperature)).reverse ++ acc).take w)⟩ := by
  induction l with
  | nil => intro i h acc; exact absurd h (Nat.not_lt_zero i)
  | cons r rest ih =>
    intro i h acc
    cases i with
    | zero => simp [calcMA]
    | succ j =>
      have hj : j < rest.length := Nat.lt_of_succ_lt_succ h
      have := ih j hj (r.temperature :: acc)
      simp only [calcMA, List.get_cons_succ] at this ⊢
      rw [this]
      simp [List.append_assoc]

/-- The multiset of samples feeding position `i` of the rolling computation is
exactly the reverse of the claim-side `windowSlice`. -/
theorem calcMA_window_eq (w : Nat) (l : List TemperatureRecord) (i : Nat)
    (h : i < l.length) :
    (((l.take (i + 1)).map (fun r : TemperatureRecord => r.temperature)).reverse
        ++ []).take w =
      (windowSlice (l.map (fun r : TemperatureRecord => r.temperature)) w i).reverse := by
  rw [List.append_nil]
  have hlen : ((l.take (i + 1)).map (fun r : TemperatureRecord => r.temperature)).length
      = i + 1 := by
    rw [List.length_map, List.length_take]
    omega
  rw [take_reverse_eq, hlen, windowSlice, ← List.map_take]

/-! ## Chunking lemmas for `np.array_split` -/

theorem splitSizes_sum_four (L : Nat) : (splitSizes L 4).sum = L := by
  have hmod : 4 * (L / 4) + L % 4 = L := Nat.div_add_mod L 4
  have hlt : L % 4 < 4 := Nat.mod_lt L (by omega)
  have hr : List.range 4 = [0, 1, 2, 3] := rfl
  simp only [splitSizes, hr, List.map_cons, List.map_nil, List.sum_cons, List.sum_nil]
  split_ifs <;> omega

theorem splitSizes_length (L n : Nat) : (splitSizes L n).length = n := by
  simp [splitSizes]

theorem mem_splitSizes_four (L s : Nat) (h : s ∈ splitSizes L 4) :
    s = L / 4 ∨ s = L / 4 + 1 := by
  obtain ⟨k, _, hk⟩ := List.mem_map.mp h
  by_cases hklt : k < L % 4
  · right
    rw [← hk, if_pos hklt]
  · left
    rw [← hk, if_neg hklt]

theorem chunksOf_length {α : Type} (sizes : List Nat) (l : List α) :
    (chunksOf sizes l).length = sizes.length := by
  induction sizes generalizing l with
  | nil => rfl
  | cons s ss ih => simp [chunksOf, ih]

theorem chunksOf_flatten {α : Type} (sizes : List Nat) (l : List α)
    (h : sizes.sum = l.length) : (chunksOf sizes l).flatten = l := by
  have main : ∀ (sizes : List Nat) (l : List α),
      (chunksOf sizes l).flatten = l.take sizes.sum := by
    intro sizes
    induction sizes with
    | nil => intro l; simp [chunksOf]
    | cons s ss ih =>
      intro l
      simp only [chunksOf, List.flatten_cons, List.sum_cons, ih, List.take_add]
  rw [main, h, List.take_length]

theorem chunksOf_map_length {α : Type} (sizes : List Nat) (l : List α)
    (h : sizes.sum ≤ l.length) : (chunksOf sizes l).map List.length = sizes := by
  induction sizes generalizing l with
  | nil => rfl
  | cons s ss ih =>
    simp only [List.sum_cons] at h
    simp only [chunksOf, List.map_cons, List.length_take]
    have hmin : s ⊓ l.length = s := by omega
    rw [hmin, ih (l.drop s) (by rw [List.length_drop]; omega)]

theorem array_split_length {α : Type} (l : List α) :
    (array_split l 4).length = 4 := by
  rw [array_split, chunksOf_length, splitSizes_length]

theorem array_split_flatten {α : Type} (l : List α) :
    (array_split l 4).flatten = l := by
  rw [array_split, chunksOf_flatten]
  exact splitSizes_sum_four l.length

theorem array_split_map_length {α : Type} (l : List α) :
    (array_split l 4).map List.length = splitSizes l.length 4 := by
  rw [array_split, chunksOf_map_length]
  rw [splitSizes_sum_four]

/-! ## The squared band test agrees with the literal `mean ± 2·std` comparisons -/

theorem band_gt_iff (t m v : ℝ) (hv : 0 ≤ v) :
    (m + 2 * Real.sqrt v < t ∨ t < m - 2 * Real.sqrt v) ↔ 4 * v < (t - m) ^ 2 := by
  have hs : 0 ≤ Real.sqrt v := Real.sqrt_nonneg v
  have hsq : Real.sqrt v ^ 2 = v := Real.sq_sqrt hv
  constructor
  · rintro (h | h) <;> nlinarith [hs, hsq]
  · intro h
    by_contra hc
    push_neg at hc
    obtain ⟨h1, h2⟩ := hc
    nlinarith [mul_nonneg (by linarith : (0 : ℝ) ≤ 2 * Real.sqrt v - (t - m))
      (by linarith : (0 : ℝ) ≤ 2 * Real.sqrt v + (t - m)), hsq]

theorem band_le_iff (t m v : ℝ) (hv : 0 ≤ v) :
    (m - 2 * Real.sqrt v ≤ t ∧ t ≤ m + 2 * Real.sqrt v) ↔ (t - m) ^ 2 ≤ 4 * v := by
  have h := (band_gt_iff t m v hv).not
  push_neg at h
  rw [← h]
  constructor
  · intro hb
    exact ⟨hb.2, hb.1⟩
  · intro hb
    exact ⟨hb.2, hb.1⟩

/-! ## The pipeline preserves the original rows in order -/

theorem parallel_analysis_length (l : List TemperatureRecord) :
    (parallel_analysis l).length = l.length := by
  conv_rhs => rw [← array_split_flatten l]
  rw [parallel_analysis, detect_anomalies_length, List.length_flatten,
    List.length_flatten, List.map_map]
  congr 1
  apply List.map_congr_left
  intro c _
  exact calculate_moving_average_length c 30

theorem parallel_analysis_map_base (l : List TemperatureRecord) :
    (parallel_analysis l).map (fun f => f.base) = l := by
  rw [parallel_analysis, detect_anomalies_map_base, List.map_flatten, List.map_map]
  have : ((array_split l 4).map
      (List.map (fun s : StatRecord => s.base) ∘ fun chunk => calculate_moving_average chunk 30))
      = (array_split l 4).map id := by
    apply List.map_congr_left
    intro c _
    simp only [Function.comp]
    exact calcMA_map_base 30 [] c
  rw [this, List.map_id, array_split_flatten]

/-! ## Claim theorems -/

/-- C1 (counterexample): on an empty historical series — so the (city, season)
subset is empty — `check_temperature_anomaly` returns the *anomalous* label,
not "within normal range" as the claim states: the `NaN` bounds make the
chained comparison `lower_bound <= current_temp <= upper_bound` false, which
lands in the `else` branch of the source. -/
theorem live_empty_counterexample :
    check_temperature_anomaly 24 "X" "summer" [] = "Аномальная температура!" ∧
    check_temperature_anomaly 24 "X" "summer" [] ≠ "Температура в пределах нормы" := by
  constructor
  · rfl
  · intro h
    exact absurd h (by decide)

/-- C1 (amended): whenever the (city, season)-filtered subset has fewer than 2
records (in particular when it is empty), `check_temperature_anomaly`
classifies every reading with the anomalous label "Аномальная температура!",
never with the normal label and never with an error. -/
theorem live_few_records_spec (df : List TemperatureRecord) (city season : String)
    (t : ℚ) (h : (seasonalTemps city season df).length < 2) :
    check_temperature_anomaly t city season df = "Аномальная температура!" := by
  have hv : sampleVar (seasonalTemps city season df) = none :=
    (sampleVar_eq_none_iff _).mpr h
  simp only [check_temperature_anomaly, hv]

/-- C1 (witness): the empty series has an empty "X"/"summer" subset and the
classifier returns the anomalous label on it. -/
theorem live_few_records_witness :
    (seasonalTemps "X" "summer" []).length < 2 ∧
    check_temperature_anomaly 24 "X" "summer" [] = "Аномальная температура!" :=
  ⟨by decide, live_few_records_spec [] "X" "summer" 24 (by decide)⟩

/-- C4: the 4-way positional split, per-chunk rolling statistics, and
chunk-order concatenation of `parallel_analysis` preserve the input rows
exactly: erasing the derived columns from the result gives back the input
series, row for row, in the original order (and the length is unchanged). -/
theorem order_preservation_spec (l : List TemperatureRecord) :
    (parallel_analysis l).length = l.length ∧
    (parallel_analysis l).map (fun f => f.base) = l :=
  ⟨parallel_analysis_length l, parallel_analysis_map_base l⟩

/-- C7: `np.array_split(l, 4)` produces exactly 4 chunks, they concatenate
back to the input in order (hence each chunk is a contiguous-by-position
subsequence), and any two chunk sizes differ by at most 1. -/
theorem chunking_spec (l : List TemperatureRecord) :
    (array_split l 4).length = 4 ∧
    (array_split l 4).flatten = l ∧
    ∀ c1, c1 ∈ array_split l 4 → ∀ c2, c2 ∈ array_split l 4 →
      c1.length ≤ c2.length + 1 := by
  refine ⟨array_split_length l, array_split_flatten l, ?_⟩
  intro c1 h1 c2 h2
  have m1 : c1.length ∈ splitSizes l.length 4 := by
    rw [← array_split_map_length]
    exact List.mem_map_of_mem _ h1
  have m2 : c2.length ∈ splitSizes l.length 4 := by
    rw [← array_split_map_length]
    exact List.mem_map_of_mem _ h2
  rcases mem_splitSizes_four _ _ m1 with e1 | e1 <;>
    rcases mem_splitSizes_four _ _ m2 with e2 | e2 <;> omega

/-- C7 (witness): on the 5-row `histX`, the chunks are 4, flatten back, and the
first chunk (2 rows) and the last chunk (1 row) differ in size by 1. -/
theorem chunking_witness :
    (array_split histX 4).length = 4 ∧
    (array_split histX 4).flatten = histX ∧
    chunkA ∈ array_split histX 4 ∧ chunkB ∈ array_split histX 4 ∧
    chunkA.length ≤ chunkB.length + 1 :=
  ⟨(chunking_spec histX).1, (chunking_spec histX).2.1, by decide, by decide,
    (chunking_spec histX).2.2 chunkA (by decide) chunkB (by decide)⟩

/-- C6: the first record of every nonempty chunk processed by the pipeline has
an undefined (`NaN`, here `none`) standard deviation — its trailing window is a
single sample — and the classifier therefore leaves its anomaly flag `false`. -/
theorem chunk_first_record_spec (l c : List TemperatureRecord)
    (hc : c ∈ array_split l 4) (hne : c ≠ []) :
    ∃ s : StatRecord, (calculate_moving_average c 30).head? = some s ∧
      s.std_dev_sq = none ∧ (flagRecord s).is_anomaly = false := by
  cases c with
  | nil => exact absurd rfl hne
  | cons r rest =>
    exact ⟨⟨r, listMean ((r.temperature :: ([] : List ℚ)).take 30),
      sampleVar ((r.temperature :: ([] : List ℚ)).take 30)⟩, rfl, rfl, rfl⟩

/-- C6 (witness): the first chunk of `histX` is such a chunk, and its leading
record indeed carries `none` and a `false` flag. -/
theorem chunk_first_record_witness :
    chunkA ∈ array_split histX 4 ∧ chunkA ≠ [] ∧
    ∃ s : StatRecord, (calculate_moving_average chunkA 30).head? = some s ∧
      s.std_dev_sq = none ∧ (flagRecord s).is_anomaly = false :=
  ⟨by decide, by decide, chunk_first_record_spec histX chunkA (by decide) (by decide)⟩

/-- C9: `parallel_analysis` is frame-preserving on the original columns: at
every position the output row carries the input record fields `timestamp`, `city`,
`season` and `temperature` unchanged (the derived `moving_avg`, `std_dev`,
`is_anomaly` being the only additions). -/
theorem pipeline_frame_spec (l : List TemperatureRecord) (i : Nat) (h : i < l.length) :
    ((parallel_analysis l).get ⟨i, by rw [parallel_analysis_length]; exact h⟩).base.timestamp
        = (l.get ⟨i, h⟩).timestamp ∧
    ((parallel_analysis l).get ⟨i, by rw [parallel_analysis_length]; exact h⟩).base.city
        = (l.get ⟨i, h⟩).city ∧
    ((parallel_analysis l).get ⟨i, by rw [parallel_analysis_length]; exact h⟩).base.season
        = (l.get ⟨i, h⟩).season ∧
    ((parallel_analysis l).get ⟨i, by rw [parallel_analysis_length]; exact h⟩).base.temperature
        = (l.get ⟨i, h⟩).temperature := by
  have hm := parallel_analysis_map_base l
  have hi : i < ((parallel_analysis l).map (fun f => f.base)).length := by
    rw [List.length_map, parallel_analysis_length]
    exact h
  have hg := List.get_of_eq hm ⟨i, hi⟩
  rw [List.get_map] at hg
  rw [hg]
  exact ⟨rfl, rfl, rfl, rfl⟩

/-- C9 (witness): at position 2 of `histX` all four original fields survive the
pipeline unchanged. -/
theorem pipeline_frame_witness :
    ((parallel_analysis histX).get
        ⟨2, by rw [parallel_analysis_length]; decide⟩).base.timestamp
      = (histX.get ⟨2, by decide⟩).timestamp ∧
    ((parallel_analysis histX).get
        ⟨2, by rw [parallel_analysis_length]; decide⟩).base.city
      = (histX.get ⟨2, by decide⟩).city ∧
    ((parallel_analysis histX).get
        ⟨2, by rw [parallel_analysis_length]; decide⟩).base.season
      = (histX.get ⟨2, by decide⟩).season ∧
    ((parallel_analysis histX).get
        ⟨2, by rw [parallel_analysis_length]; decide⟩).base.temperature
      = (histX.get ⟨2, by decide⟩).temperature :=
  pipeline_frame_spec histX 2 (by decide)

/-- C10: on a series with fewer than 4 rows, `parallel_analysis` still
succeeds: the 4-way split contains an empty chunk, the rolling computation on
an empty chunk is a no-op, and the result consists of exactly the input rows
(with the derived columns attached), in order and in equal number. -/
theorem small_series_spec (l : List TemperatureRecord) (h : l.length < 4) :
    (parallel_analysis l).map (fun f => f.base) = l ∧
    (parallel_analysis l).length = l.length ∧
    ([] : List TemperatureRecord) ∈ array_split l 4 ∧
    calculate_moving_average ([] : List TemperatureRecord) 30 = [] := by
  refine ⟨parallel_analysis_map_base l, parallel_analysis_length l, ?_, rfl⟩
  have h0 : (0 : Nat) ∈ splitSizes l.length 4 := by
    rw [splitSizes]
    refine List.mem_map.mpr ⟨3, by simp [List.mem_range], ?_⟩
    rw [if_neg (by omega)]
    omega
  rw [← array_split_map_length] at h0
  obtain ⟨c, hc, hlen⟩ := List.mem_map.mp h0
  rw [← List.eq_nil_of_length_eq_zero hlen]
  exact hc

/-- C10 (witness): the two-row series goes through the pipeline intact and its
4-way split contains an empty chunk. -/
theorem small_series_witness :
    (parallel_analysis smallSeries).map (fun f => f.base) = smallSeries ∧
    (parallel_analysis smallSeries).length = smallSeries.length ∧
    ([] : List TemperatureRecord) ∈ array_split smallSeries 4 ∧
    calculate_moving_average ([] : List TemperatureRecord) 30 = [] :=
  small_series_spec smallSeries (by decide)

/-- C2: `detect_anomalies` sets `is_anomaly[i]` to true exactly when the
temperature leaves the `moving_avg ± 2·std_dev` band of its own row (over `ℝ`,
with `std_dev = √v` for the stored variance `v`), and to false whenever the
standard deviation is undefined (`NaN`). -/
theorem classifier_consistency_spec (l : List StatRecord) (i : Nat) (h : i < l.length)
    (hnn : 0 ≤ (l.get ⟨i, h⟩).std_dev_sq.getD 0) :
    (((detect_anomalies l).get
        ⟨i, by rw [detect_anomalies_length]; exact h⟩).is_anomaly = true ↔
      ∃ v : ℚ, (l.get ⟨i, h⟩).std_dev_sq = some v ∧
        (((l.get ⟨i, h⟩).moving_avg : ℝ) + 2 * Real.sqrt (v : ℝ)
            < ((l.get ⟨i, h⟩).base.temperature : ℝ) ∨
         ((l.get ⟨i, h⟩).base.temperature : ℝ)
            < ((l.get ⟨i, h⟩).moving_avg : ℝ) - 2 * Real.sqrt (v : ℝ))) ∧
    ((l.get ⟨i, h⟩).std_dev_sq = none →
      ((detect_anomalies l).get
        ⟨i, by rw [detect_anomalies_length]; exact h⟩).is_anomaly = false) := by
  have hget : (detect_anomalies l).get ⟨i, by rw [detect_anomalies_length]; exact h⟩
      = flagRecord (l.get ⟨i, h⟩) := List.get_map _
  rw [hget]
  revert hnn
  generalize l.get ⟨i, h⟩ = s
  intro hnn
  cases hsv : s.std_dev_sq with
  | none =>
    refine ⟨?_, fun _ => ?_⟩
    · rw [show (flagRecord s).is_anomaly = false from by simp [flagRecord, hsv]]
      simp [hsv]
    · simp [flagRecord, hsv]
  | some v =>
    have hv : (0 : ℚ) ≤ v := by
      rw [hsv] at hnn
      simpa using hnn
    have hvr : (0 : ℝ) ≤ ((v : ℚ) : ℝ) := by exact_mod_cast hv
    refine ⟨?_, fun hnone => ?_⟩
    · rw [show (flagRecord s).is_anomaly
          = decide (4 * v < (s.base.temperature - s.moving_avg) ^ 2) from by
        simp [flagRecord, hsv]]
      rw [decide_eq_true_eq]
      constructor
      · intro hlt
        refine ⟨v, rfl, ?_⟩
        have hr : (4 : ℝ) * ((v : ℚ) : ℝ) < (((s.base.temperature : ℚ) : ℝ)
            - ((s.moving_avg : ℚ) : ℝ)) ^ 2 := by
          exact_mod_cast hlt
        exact (band_gt_iff _ _ _ hvr).mpr hr
      · rintro ⟨v2, hv2, hband⟩
        obtain rfl := Option.some.inj hv2
        have hr := (band_gt_iff _ _ _ hvr).mp hband
        exact_mod_cast hr
    · simp at hnone

/-- C2 (witness): a row with temperature 100, moving average 10 and variance 4
(std 2) is flagged, and the band characterization holds for it. -/
theorem classifier_consistency_witness :
    (((detect_anomalies statExample).get
        ⟨0, by rw [detect_anomalies_length]; decide⟩).is_anomaly = true ↔
      ∃ v : ℚ, (statExample.get ⟨0, by decide⟩).std_dev_sq = some v ∧
        (((statExample.get ⟨0, by decide⟩).moving_avg : ℝ) + 2 * Real.sqrt (v : ℝ)
            < ((statExample.get ⟨0, by decide⟩).base.temperature : ℝ) ∨
         ((statExample.get ⟨0, by decide⟩).base.temperature : ℝ)
            < ((statExample.get ⟨0, by decide⟩).moving_avg : ℝ) - 2 * Real.sqrt (v : ℝ))) ∧
    ((statExample.get ⟨0, by decide⟩).std_dev_sq = none →
      ((detect_anomalies statExample).get
        ⟨0, by rw [detect_anomalies_length]; decide⟩).is_anomaly = false) :=
  classifier_consistency_spec statExample 0 (by decide) (by decide)

/-- C3: at every position `i`, the rolling computation reports the arithmetic
mean over the trailing window of up to `w` records ending at `i` (windows
shorter than `w` allowed at the start, minimum 1 record), the sample (N−1)
variance over that same window, and an undefined (`none`) deviation exactly
when that window holds a single record; the underlying row is untouched. -/
theorem rolling_stats_spec (l : List TemperatureRecord) (w i : Nat)
    (hw : 1 ≤ w) (h : i < l.length) :
    ((calculate_moving_average l w).get
        ⟨i, by rw [calculate_moving_average_length]; exact h⟩).base = l.get ⟨i, h⟩ ∧
    ((calculate_moving_average l w).get
        ⟨i, by rw [calculate_moving_average_length]; exact h⟩).moving_avg
      = listMean (windowSlice (l.map (fun r : TemperatureRecord => r.temperature)) w i) ∧
    ((calculate_moving_average l w).get
        ⟨i, by rw [calculate_moving_average_length]; exact h⟩).std_dev_sq
      = sampleVar (windowSlice (l.map (fun r : TemperatureRecord => r.temperature)) w i) ∧
    (((calculate_moving_average l w).get
        ⟨i, by rw [calculate_moving_average_length]; exact h⟩).std_dev_sq = none ↔
      (windowSlice (l.map (fun r : TemperatureRecord => r.temperature)) w i).length = 1) := by
  have hgoal : (calculate_moving_average l w).get
      ⟨i, by rw [calculate_moving_average_length]; exact h⟩
      = ⟨l.get ⟨i, h⟩,
         listMean (windowSlice (l.map (fun r : TemperatureRecord => r.temperature)) w i),
         sampleVar (windowSlice (l.map (fun r : TemperatureRecord => r.temperature)) w i)⟩ := by
    have hg := calcMA_get w l i h []
    rw [calcMA_window_eq w l i h, listMean_reverse, sampleVar_reverse] at hg
    exact hg
  rw [hgoal]
  refine ⟨rfl, rfl, rfl, ?_⟩
  rw [sampleVar_eq_none_iff]
  have hlen : (windowSlice (l.map (fun r : TemperatureRecord => r.temperature)) w i).length
      = (i + 1) - ((i + 1) - w) := by
    rw [windowSlice, List.length_drop, List.length_take, List.length_map]
    omega
  rw [hlen]
  omega

/-- C3 (witness): on `histX` with window 3 at position 2 the window is
`[20, 22, 24]`: mean, sample variance and the definedness of the deviation all
match the trailing-window specification. -/
theorem rolling_stats_witness :
    ((calculate_moving_average histX 3).get
        ⟨2, by rw [calculate_moving_average_length]; decide⟩).base = histX.get ⟨2, by decide⟩ ∧
    ((calculate_moving_average histX 3).get
        ⟨2, by rw [calculate_moving_average_length]; decide⟩).moving_avg
      = listMean (windowSlice (histX.map (fun r : TemperatureRecord => r.temperature)) 3 2) ∧
    ((calculate_moving_average histX 3).get
        ⟨2, by rw [calculate_moving_average_length]; decide⟩).std_dev_sq
      = sampleVar (windowSlice (histX.map (fun r : TemperatureRecord => r.temperature)) 3 2) ∧
    (((calculate_moving_average histX 3).get
        ⟨2, by rw [calculate_moving_average_length]; decide⟩).std_dev_sq = none ↔
      (windowSlice (histX.map (fun r : TemperatureRecord => r.temperature)) 3 2).length = 1) :=
  rolling_stats_spec histX 3 2 (by decide) (by decide)

/-! ## Concrete seasonal statistics of the example series -/

theorem seasonalTemps_histX :
    seasonalTemps "X" "summer" histX = [20, 22, 24, 26, 28] := by
  decide

theorem listMean_histX : listMean (seasonalTemps "X" "summer" histX) = 24 := by
  rw [seasonalTemps_histX]
  norm_num [listMean]

theorem sampleVar_histX : sampleVar (seasonalTemps "X" "summer" histX) = some 10 := by
  rw [seasonalTemps_histX, sampleVar]
  norm_num [listMean]

/-- C5: on city "X", season "summer" with temperatures `[20, 22, 24, 26, 28]`,
a reading of 24 is "within normal range" and a reading of 40 is anomalous; in
general, whenever the seasonal standard deviation is defined, a reading is
classified anomalous exactly when it falls outside the closed interval
`[mean − 2·std, mean + 2·std]` of the (city, season)-filtered subset. -/
theorem live_classifier_spec :
    check_temperature_anomaly 24 "X" "summer" histX = "Температура в пределах нормы" ∧
    check_temperature_anomaly 40 "X" "summer" histX = "Аномальная температура!" ∧
    ∀ (df : List TemperatureRecord) (t : ℚ) (city season : String) (v : ℚ),
      sampleVar (seasonalTemps city season df) = some v →
      (check_temperature_anomaly t city season df = "Аномальная температура!" ↔
        ((t : ℝ) < (listMean (seasonalTemps city season df) : ℝ) - 2 * Real.sqrt (v : ℝ) ∨
         (listMean (seasonalTemps city season df) : ℝ) + 2 * Real.sqrt (v : ℝ) < (t : ℝ))) := by
  refine ⟨?_, ?_, ?_⟩
  · rw [check_temperature_anomaly, sampleVar_histX]
    norm_num [listMean_histX]
  · rw [check_temperature_anomaly, sampleVar_histX]
    norm_num [listMean_histX]
  · intro df t city season v hv
    have hvq : (0 : ℚ) ≤ v := sampleVar_nonneg _ v hv
    have hvr : (0 : ℝ) ≤ ((v : ℚ) : ℝ) := by exact_mod_cast hvq
    simp only [check_temperature_anomaly, hv]
    by_cases hb : (t - listMean (seasonalTemps city season df)) ^ 2 ≤ 4 * v
    · rw [if_pos hb]
      constructor
      · intro hcontra
        exact absurd hcontra (by decide)
      · intro hout
        exfalso
        have hbr : (((t : ℚ) : ℝ) - ((listMean (seasonalTemps city season df) : ℚ) : ℝ)) ^ 2
            ≤ 4 * ((v : ℚ) : ℝ) := by exact_mod_cast hb
        have hin := (band_le_iff _ _ _ hvr).mpr hbr
        rcases hout with hlt | hgt
        · linarith [hin.1]
        · linarith [hin.2]
    · rw [if_neg hb]
      refine ⟨fun _ => ?_, fun _ => rfl⟩
      have hbq : 4 * v < (t - listMean (seasonalTemps city season df)) ^ 2 := lt_of_not_le hb
      have hbr : 4 * ((v : ℚ) : ℝ)
          < (((t : ℚ) : ℝ) - ((listMean (seasonalTemps city season df) : ℚ) : ℝ)) ^ 2 := by
        exact_mod_cast hbq
      rcases (band_gt_iff _ _ _ hvr).mpr hbr with hgt | hlt
      · exact Or.inr hgt
      · exact Or.inl hlt

/-- C5 (witness): the general band characterization, instantiated on `histX`
with reading 40 and the seasonal variance 10 (std √10). -/
theorem live_classifier_witness :
    sampleVar (seasonalTemps "X" "summer" histX) = some 10 ∧
    (check_temperature_anomaly 40 "X" "summer" histX = "Аномальная температура!" ↔
      (((40 : ℚ) : ℝ) < (listMean (seasonalTemps "X" "summer" histX) : ℝ)
          - 2 * Real.sqrt ((10 : ℚ) : ℝ) ∨
       (listMean (seasonalTemps "X" "summer" histX) : ℝ)
          + 2 * Real.sqrt ((10 : ℚ) : ℝ) < ((40 : ℚ) : ℝ))) :=
  ⟨sampleVar_histX, live_classifier_spec.2.2 histX 40 "X" "summer" 10 sampleVar_histX⟩
